import Mathlib

/-!
Shallow embedding of the shared-bus SPI device transaction protocol
(`RefCellDevice::transaction` in `embedded-hal-bus/src/spi/refcell.rs`).

The bus transport (`SpiBus`), chip-select pin (`OutputPin`) and delay
provider (`DelayUs`) are external capabilities: they are modelled as
abstract state-transition functions, each primitive returning its new
state together with `none` for `Ok(())` or `some e` for `Err(e)`.
Execution is instrumented with a trace of the primitive calls issued,
in order, so that the ordering and bracketing properties of the
transaction algorithm can be stated as facts about the trace.
-/

set_option maxHeartbeats 1000000

section Model

variable {σ π δ BusE CsE Word : Type}

/-- Modelled from the spec: the `Operation` enum of `embedded_hal::spi`
that `RefCellDevice::transaction` matches on.  Its declaration is not
among the sources here (the file `src/src/spi/blocking.rs` holds an
older, four-variant `Operation` used only by the legacy `Transactional`
trait); the five constructors below are exactly the five arms of the
exhaustive match in `RefCellDevice::transaction`, with buffers modelled
as lists of words and the microsecond count of `DelayUs` as a natural
number. -/
inductive Operation (Word : Type) where
  | Read (buf : List Word)
  | Write (buf : List Word)
  | Transfer (readBuf : List Word) (writeBuf : List Word)
  | TransferInPlace (buf : List Word)
  | DelayUs (us : Nat)
deriving DecidableEq

/-- Modelled from the spec: the error type `DeviceError { Spi(transport
error), Cs(pin error) }` of `embedded-hal-bus` (`super::DeviceError` in
`refcell.rs`; its declaring module is not among the sources).  The two
variants are exactly the two wrappers applied in
`RefCellDevice::transaction`. -/
inductive DeviceError (BusError CsError : Type) where
  | Spi (e : BusError)
  | Cs (e : CsError)
deriving DecidableEq

/-- One primitive call issued by the device, with the arguments passed
at call time.  A call is recorded whether it succeeds or fails. -/
inductive Event (Word : Type) where
  | setLow
  | setHigh
  | read (buf : List Word)
  | write (buf : List Word)
  | transfer (readBuf : List Word) (writeBuf : List Word)
  | transferInPlace (buf : List Word)
  | flush
  | delayUs (us : Nat)
deriving DecidableEq

/-- Is the event the chip-select assert call `set_low`? -/
def Event.isSetLow : Event Word → Bool
  | .setLow => true
  | _ => false

/-- Is the event the chip-select deassert call `set_high`? -/
def Event.isSetHigh : Event Word → Bool
  | .setHigh => true
  | _ => false

/-- Is the event a call into the bus transport (read, write, transfer,
transfer_in_place or flush)? -/
def Event.isTransport : Event Word → Bool
  | .read _ => true
  | .write _ => true
  | .transfer _ _ => true
  | .transferInPlace _ => true
  | .flush => true
  | _ => false

/-- Is the event an invocation of the delay provider? -/
def Event.isDelay : Event Word → Bool
  | .delayUs _ => true
  | _ => false

/-- Abstract model of the `SpiBus` transport capability used by
`RefCellDevice::transaction`.  Each primitive maps the transport state
and the buffer arguments to the new state, the post-call contents of the
mutable buffer (where there is one), and `none` for success or `some e`
for failure. -/
structure SpiBusModel (σ BusE Word : Type) where
  read : σ → List Word → σ × List Word × Option BusE
  write : σ → List Word → σ × Option BusE
  transfer : σ → List Word → List Word → σ × List Word × Option BusE
  transfer_in_place : σ → List Word → σ × List Word × Option BusE
  flush : σ → σ × Option BusE

/-- Abstract model of the `OutputPin` chip-select capability:
`set_low` asserts, `set_high` deasserts, each may fail. -/
structure OutputPinModel (π CsE : Type) where
  set_low : π → π × Option CsE
  set_high : π → π × Option CsE

/-- Abstract model of the `DelayUs` capability: `delay_us` blocks for
the requested microseconds; by contract it cannot fail, so it is a plain
state transition. -/
structure DelayModel (δ : Type) where
  delay_us : δ → Nat → δ

/-- A `RefCellDevice`: a shared bus transport, an exclusively owned
chip-select pin and a delay provider. -/
structure Device (σ π δ BusE CsE Word : Type) where
  bus : SpiBusModel σ BusE Word
  cs : OutputPinModel π CsE
  delay : DelayModel δ

/-- The mutable state threaded through a transaction: the transport
state, the pin state and the delay-provider state. -/
structure TState (σ π δ : Type) where
  busSt : σ
  pinSt : π
  delaySt : δ

/-- Result of executing one operation: new state, the calls issued, the
operation with its buffers as mutated by the call, and `none` for
success or `some e` for the transport error. -/
structure OpOut (σ π δ BusE Word : Type) where
  st : TState σ π δ
  events : List (Event Word)
  op : Operation Word
  res : Option BusE

/-- Result of the operation-execution phase (`try_for_each`). -/
structure RunOut (σ π δ BusE Word : Type) where
  st : TState σ π δ
  events : List (Event Word)
  ops : List (Operation Word)
  res : Option BusE

/-- Result of a whole transaction. -/
structure TxOut (σ π δ BusE CsE Word : Type) where
  st : TState σ π δ
  events : List (Event Word)
  ops : List (Operation Word)
  res : Except (DeviceError BusE CsE) Unit

/-- One arm of the `match op` inside the `try_for_each` closure of
`RefCellDevice::transaction`: forward the operation to the matching
transport primitive; for `DelayUs`, first flush the transport and only
if the flush succeeded invoke the delay provider. -/
def runOp (d : Device σ π δ BusE CsE Word) (s : TState σ π δ) :
    Operation Word → OpOut σ π δ BusE Word
  | .Read buf =>
    let t := d.bus.read s.busSt buf
    ⟨{ s with busSt := t.1 }, [Event.read buf], .Read t.2.1, t.2.2⟩
  | .Write buf =>
    let t := d.bus.write s.busSt buf
    ⟨{ s with busSt := t.1 }, [Event.write buf], .Write buf, t.2⟩
  | .Transfer rbuf wbuf =>
    let t := d.bus.transfer s.busSt rbuf wbuf
    ⟨{ s with busSt := t.1 }, [Event.transfer rbuf wbuf], .Transfer t.2.1 wbuf, t.2.2⟩
  | .TransferInPlace buf =>
    let t := d.bus.transfer_in_place s.busSt buf
    ⟨{ s with busSt := t.1 }, [Event.transferInPlace buf], .TransferInPlace t.2.1, t.2.2⟩
  | .DelayUs us =>
    let t := d.bus.flush s.busSt
    match t.2 with
    | some e => ⟨{ s with busSt := t.1 }, [Event.flush], .DelayUs us, some e⟩
    | none =>
      ⟨{ s with busSt := t.1, delaySt := d.delay.delay_us s.delaySt us },
        [Event.flush, Event.delayUs us], .DelayUs us, none⟩

/-- The `operations.iter_mut().try_for_each(..)` phase of
`RefCellDevice::transaction`: execute the operations strictly in order,
stopping at the first failure; operations after the failing one are not
executed. -/
def runOps (d : Device σ π δ BusE CsE Word) (s : TState σ π δ) :
    List (Operation Word) → RunOut σ π δ BusE Word
  | [] => ⟨s, [], [], none⟩
  | op :: rest =>
    let o := runOp d s op
    match o.res with
    | some e => ⟨o.st, o.events, o.op :: rest, some e⟩
    | none =>
      let r := runOps d o.st rest
      ⟨r.st, o.events ++ r.events, o.op :: r.ops, r.res⟩

/-- `RefCellDevice::transaction`: assert CS (`set_low`), returning a
`Cs`-wrapped error at once if that fails; otherwise run the operations,
then unconditionally flush the bus and deassert CS (`set_high`), and
report the first error with priority operation error (as `Spi`), then
flush error (as `Spi`), then `set_high` error (as `Cs`). -/
def transaction (d : Device σ π δ BusE CsE Word) (s : TState σ π δ)
    (operations : List (Operation Word)) : TxOut σ π δ BusE CsE Word :=
  let low := d.cs.set_low s.pinSt
  match low.2 with
  | some e => ⟨{ s with pinSt := low.1 }, [Event.setLow], operations,
      .error (.Cs e)⟩
  | none =>
    let r := runOps d { s with pinSt := low.1 } operations
    let fl := d.bus.flush r.st.busSt
    let hi := d.cs.set_high r.st.pinSt
    let res : Except (DeviceError BusE CsE) Unit :=
      match r.res with
      | some e => .error (.Spi e)
      | none =>
        match fl.2 with
        | some e => .error (.Spi e)
        | none =>
          match hi.2 with
          | some e => .error (.Cs e)
          | none => .ok ()
    ⟨{ r.st with busSt := fl.1, pinSt := hi.1 },
      Event.setLow :: r.events ++ [Event.flush, Event.setHigh], r.ops, res⟩

/-- The state after a successful CS assertion: only the pin component
has advanced. -/
def postLow (d : Device σ π δ BusE CsE Word) (s : TState σ π δ) : TState σ π δ :=
  { s with pinSt := (d.cs.set_low s.pinSt).1 }

/-- The calls a fully executed operation issues: each buffer operation
issues exactly its matching transport primitive; a `DelayUs` issues a
flush and then the delay. -/
def opEvents : Operation Word → List (Event Word)
  | .Read buf => [Event.read buf]
  | .Write buf => [Event.write buf]
  | .Transfer rbuf wbuf => [Event.transfer rbuf wbuf]
  | .TransferInPlace buf => [Event.transferInPlace buf]
  | .DelayUs us => [Event.flush, Event.delayUs us]

/-- The calls a FAILING operation issues: the buffer operations issue
their (failing) primitive call; a `DelayUs` can only fail at its flush,
so the delay provider is never invoked. -/
def failEvents : Operation Word → List (Event Word)
  | .Read buf => [Event.read buf]
  | .Write buf => [Event.write buf]
  | .Transfer rbuf wbuf => [Event.transfer rbuf wbuf]
  | .TransferInPlace buf => [Event.transferInPlace buf]
  | .DelayUs _ => [Event.flush]

/-- The concatenation of `opEvents` over a list of operations. -/
def opsEvents : List (Operation Word) → List (Event Word)
  | [] => []
  | op :: rest => opEvents op ++ opsEvents rest

/-- Auxiliary scanner for `flushBeforeDelays`: `prevFlush` records
whether the immediately preceding event was a `flush`; a `delayUs`
event is legal only in that case. -/
def fbdAux : Bool → List (Event Word) → Bool
  | _, [] => true
  | prevFlush, e :: rest =>
    match e with
    | Event.delayUs _ => prevFlush && fbdAux false rest
    | Event.flush => fbdAux true rest
    | _ => fbdAux false rest

/-- Every `delayUs` event in the trace is immediately preceded by a
`flush` event. -/
def flushBeforeDelays (tr : List (Event Word)) : Bool :=
  fbdAux false tr

end Model

section Concrete

/-- A bus transport on trivial state whose primitives all succeed. -/
def okBus : SpiBusModel Unit Unit Nat where
  read := fun s buf => (s, buf, none)
  write := fun s _ => (s, none)
  transfer := fun s rbuf _ => (s, rbuf, none)
  transfer_in_place := fun s buf => (s, buf, none)
  flush := fun s => (s, none)

/-- A chip-select pin whose calls all succeed. -/
def okPin : OutputPinModel Unit Unit where
  set_low := fun s => (s, none)
  set_high := fun s => (s, none)

/-- A trivial delay provider. -/
def okDelay : DelayModel Unit where
  delay_us := fun s _ => s

/-- A device on which every primitive succeeds. -/
def okDevice : Device Unit Unit Unit Unit Unit Nat :=
  ⟨okBus, okPin, okDelay⟩

/-- A device whose chip-select assert (`set_low`) always fails. -/
def failLowDevice : Device Unit Unit Unit Unit Unit Nat :=
  ⟨okBus, ⟨fun s => (s, some ()), fun s => (s, none)⟩, okDelay⟩

/-- A device whose bus `flush` always fails, all else succeeding. -/
def flushFailDevice : Device Unit Unit Unit Unit Unit Nat :=
  ⟨{ okBus with flush := fun s => (s, some ()) }, okPin, okDelay⟩

/-- A device whose bus `write` always fails, all else succeeding. -/
def writeFailDevice : Device Unit Unit Unit Unit Unit Nat :=
  ⟨{ okBus with write := fun s _ => (s, some ()) }, okPin, okDelay⟩

/-- The all-`Unit` initial state. -/
def st0 : TState Unit Unit Unit := ⟨(), (), ()⟩

end Concrete

example :
    (transaction okDevice st0 [Operation.Write [1, 2], Operation.DelayUs 100,
      Operation.Read [0, 0, 0]]).events
    = [Event.setLow, Event.write [1, 2], Event.flush, Event.delayUs 100,
       Event.read [0, 0, 0], Event.flush, Event.setHigh] := by decide

example :
    (transaction writeFailDevice st0 [Operation.Write [1, 2], Operation.DelayUs 100,
      Operation.Read [0, 0, 0]]).events
    = [Event.setLow, Event.write [1, 2], Event.flush, Event.setHigh]
    ∧ (transaction writeFailDevice st0 [Operation.Write [1, 2], Operation.DelayUs 100,
      Operation.Read [0, 0, 0]]).res = Except.error (DeviceError.Spi ()) := ⟨by decide, rfl⟩

example : (transaction failLowDevice st0 []).events = [Event.setLow] := by decide

section Lemmas

variable {σ π δ BusE CsE Word : Type}

theorem runOp_events_res_none (d : Device σ π δ BusE CsE Word) (s : TState σ π δ)
    (op : Operation Word) (h : (runOp d s op).res = none) :
    (runOp d s op).events = opEvents op := by
  cases op with
  | Read buf => simp [runOp, opEvents]
  | Write buf => simp [runOp, opEvents]
  | Transfer rbuf wbuf => simp [runOp, opEvents]
  | TransferInPlace buf => simp [runOp, opEvents]
  | DelayUs us =>
    rcases hf : (d.bus.flush s.busSt).2 with _ | e
    · simp [runOp, hf, opEvents]
    · simp [runOp, hf] at h

theorem runOp_events_res_some (d : Device σ π δ BusE CsE Word) (s : TState σ π δ)
    (op : Operation Word) (e : BusE) (h : (runOp d s op).res = some e) :
    (runOp d s op).events = failEvents op := by
  cases op with
  | Read buf => simp [runOp, failEvents]
  | Write buf => simp [runOp, failEvents]
  | Transfer rbuf wbuf => simp [runOp, failEvents]
  | TransferInPlace buf => simp [runOp, failEvents]
  | DelayUs us =>
    rcases hf : (d.bus.flush s.busSt).2 with _ | e'
    · simp [runOp, hf] at h
    · simp [runOp, hf, failEvents]

theorem runOp_events_no_pin (d : Device σ π δ BusE CsE Word) (s : TState σ π δ)
    (op : Operation Word) :
    ∀ ev ∈ (runOp d s op).events, ev.isSetLow = false ∧ ev.isSetHigh = false := by
  cases op with
  | Read buf => simp [runOp, Event.isSetLow, Event.isSetHigh]
  | Write buf => simp [runOp, Event.isSetLow, Event.isSetHigh]
  | Transfer rbuf wbuf => simp [runOp, Event.isSetLow, Event.isSetHigh]
  | TransferInPlace buf => simp [runOp, Event.isSetLow, Event.isSetHigh]
  | DelayUs us =>
    rcases hf : (d.bus.flush s.busSt).2 with _ | e
    · simp [runOp, hf, Event.isSetLow, Event.isSetHigh]
    · simp [runOp, hf, Event.isSetLow, Event.isSetHigh]

theorem runOps_events_no_pin (d : Device σ π δ BusE CsE Word) :
    ∀ (ops : List (Operation Word)) (s : TState σ π δ),
    ∀ ev ∈ (runOps d s ops).events, ev.isSetLow = false ∧ ev.isSetHigh = false := by
  intro ops
  induction ops with
  | nil => intro s ev hev; simp [runOps] at hev
  | cons op rest ih =>
    intro s ev hev
    rcases ho : (runOp d s op).res with _ | e
    · simp [runOps, ho, List.mem_append] at hev
      rcases hev with hev | hev
      · exact runOp_events_no_pin d s op ev hev
      · exact ih (runOp d s op).st ev hev
    · simp [runOps, ho] at hev
      exact runOp_events_no_pin d s op ev hev

theorem runOps_events_res_none (d : Device σ π δ BusE CsE Word) :
    ∀ (ops : List (Operation Word)) (s : TState σ π δ),
    (runOps d s ops).res = none → (runOps d s ops).events = opsEvents ops := by
  intro ops
  induction ops with
  | nil => intro s _; simp [runOps, opsEvents]
  | cons op rest ih =>
    intro s h
    rcases ho : (runOp d s op).res with _ | e
    · simp [runOps, ho] at h ⊢
      rw [runOp_events_res_none d s op ho, opsEvents, ih _ h]
    · simp [runOps, ho] at h

theorem runOps_events_res_some (d : Device σ π δ BusE CsE Word) :
    ∀ (ops : List (Operation Word)) (s : TState σ π δ) (e : BusE),
    (runOps d s ops).res = some e →
    ∃ pre fop post, ops = pre ++ fop :: post
      ∧ (runOps d s pre).res = none
      ∧ (runOps d s ops).events = opsEvents pre ++ failEvents fop
      ∧ (runOp d (runOps d s pre).st fop).res = some e := by
  intro ops
  induction ops with
  | nil => intro s e h; simp [runOps] at h
  | cons op rest ih =>
    intro s e h
    rcases ho : (runOp d s op).res with _ | e'
    · simp only [runOps, ho] at h
      rcases ih (runOp d s op).st e h with ⟨pre, fop, post, hsplit, hpre, hev, hop⟩
      refine ⟨op :: pre, fop, post, by simp [hsplit], ?_, ?_, ?_⟩
      · simp [runOps, ho, hpre]
      · simp only [runOps, ho]
        rw [runOp_events_res_none d s op ho, hev, opsEvents, List.append_assoc]
      · simp only [runOps, ho]
        exact hop
    · refine ⟨[], op, rest, rfl, by simp [runOps], ?_, ?_⟩
      · simp only [runOps, ho] at h ⊢
        rw [runOp_events_res_some d s op e' ho]
        simp [opsEvents]
      · simp only [runOps]
        rw [ho]
        simp only [runOps, ho] at h
        rw [← h]

theorem runOps_append (d : Device σ π δ BusE CsE Word) :
    ∀ (l1 l2 : List (Operation Word)) (s : TState σ π δ),
    (runOps d s l1).res = none →
    (runOps d s (l1 ++ l2)).st = (runOps d (runOps d s l1).st l2).st
    ∧ (runOps d s (l1 ++ l2)).events
        = (runOps d s l1).events ++ (runOps d (runOps d s l1).st l2).events
    ∧ (runOps d s (l1 ++ l2)).res = (runOps d (runOps d s l1).st l2).res := by
  intro l1
  induction l1 with
  | nil => intro l2 s _; simp [runOps]
  | cons op rest ih =>
    intro l2 s h
    rcases ho : (runOp d s op).res with _ | e
    · simp only [runOps, ho] at h
      rcases ih l2 (runOp d s op).st h with ⟨h1, h2, h3⟩
      refine ⟨?_, ?_, ?_⟩
      · simp only [List.cons_append, runOps, ho, List.append_eq]
        rw [h1]
      · simp only [List.cons_append, runOps, ho, List.append_eq]
        rw [h2, List.append_assoc]
      · simp only [List.cons_append, runOps, ho, List.append_eq]
        rw [h3]
    · simp [runOps, ho] at h

theorem transaction_low_fail (d : Device σ π δ BusE CsE Word) (s : TState σ π δ)
    (ops : List (Operation Word)) (e : CsE) (h : (d.cs.set_low s.pinSt).2 = some e) :
    transaction d s ops
      = ⟨{ s with pinSt := (d.cs.set_low s.pinSt).1 }, [Event.setLow], ops,
          Except.error (DeviceError.Cs e)⟩ := by
  simp [transaction, h]

theorem transaction_low_ok_events (d : Device σ π δ BusE CsE Word) (s : TState σ π δ)
    (ops : List (Operation Word)) (h : (d.cs.set_low s.pinSt).2 = none) :
    (transaction d s ops).events
      = Event.setLow :: (runOps d (postLow d s) ops).events
          ++ [Event.flush, Event.setHigh] := by
  simp [transaction, postLow, h]

theorem transaction_low_ok_st (d : Device σ π δ BusE CsE Word) (s : TState σ π δ)
    (ops : List (Operation Word)) (h : (d.cs.set_low s.pinSt).2 = none) :
    (transaction d s ops).st
      = { (runOps d (postLow d s) ops).st with
          busSt := (d.bus.flush
            (runOps d (postLow d s) ops).st.busSt).1,
          pinSt := (d.cs.set_high
            (runOps d (postLow d s) ops).st.pinSt).1 } := by
  simp [transaction, postLow, h]

theorem transaction_low_ok_res (d : Device σ π δ BusE CsE Word) (s : TState σ π δ)
    (ops : List (Operation Word)) (h : (d.cs.set_low s.pinSt).2 = none) :
    (transaction d s ops).res
      = (match (runOps d (postLow d s) ops).res with
         | some e => Except.error (DeviceError.Spi e)
         | none =>
           match (d.bus.flush
               (runOps d (postLow d s) ops).st.busSt).2 with
           | some e => Except.error (DeviceError.Spi e)
           | none =>
             match (d.cs.set_high
                 (runOps d (postLow d s) ops).st.pinSt).2 with
             | some e => Except.error (DeviceError.Cs e)
             | none => Except.ok ()) := by
  simp [transaction, postLow, h]

theorem fbdAux_of_false : ∀ (l : List (Event Word)) (b : Bool),
    fbdAux false l = true → fbdAux b l = true := by
  intro l
  induction l with
  | nil => intro b _; rfl
  | cons e rest ih =>
    intro b h
    cases e <;> simp [fbdAux] at h ⊢ <;> exact h

theorem fbdAux_opEvents (op : Operation Word) (l : List (Event Word)) (b : Bool)
    (h : fbdAux false l = true) : fbdAux b (opEvents op ++ l) = true := by
  cases op <;> simp [opEvents, fbdAux] <;> exact h

theorem fbdAux_failEvents (op : Operation Word) (l : List (Event Word)) (b : Bool)
    (h : fbdAux false l = true) : fbdAux b (failEvents op ++ l) = true := by
  cases op <;> simp [failEvents, fbdAux] <;> first
    | exact h
    | exact fbdAux_of_false l true h

theorem fbdAux_runOps (d : Device σ π δ BusE CsE Word) :
    ∀ (ops : List (Operation Word)) (s : TState σ π δ) (l : List (Event Word)) (b : Bool),
    fbdAux false l = true → fbdAux b ((runOps d s ops).events ++ l) = true := by
  intro ops
  induction ops with
  | nil =>
    intro s l b h
    simpa [runOps] using fbdAux_of_false l b h
  | cons op rest ih =>
    intro s l b h
    rcases ho : (runOp d s op).res with _ | e
    · simp only [runOps, ho]
      rw [runOp_events_res_none d s op ho, List.append_assoc]
      exact fbdAux_opEvents op _ b (ih (runOp d s op).st l false h)
    · simp only [runOps, ho]
      rw [runOp_events_res_some d s op e ho]
      exact fbdAux_failEvents op l b h

end Lemmas

section Claims

variable {σ π δ BusE CsE Word : Type}

/-- C1 (amended): for every transaction in which the initial CS assertion
(set_low) succeeds, the trace starts with the single set_low call and ends
with a single set_high call, with no other pin call in between, so CS is
not left asserted after `transaction` returns; when the initial set_low
fails, `transaction` returns at once and issues no set_high at all. -/
theorem transaction_cs_bracketing (d : Device σ π δ BusE CsE Word) (s : TState σ π δ)
    (ops : List (Operation Word)) :
    ((d.cs.set_low s.pinSt).2 = none →
      ∃ mid, (transaction d s ops).events = Event.setLow :: (mid ++ [Event.setHigh])
        ∧ ∀ ev ∈ mid, ev.isSetLow = false ∧ ev.isSetHigh = false)
    ∧ ((d.cs.set_low s.pinSt).2 ≠ none →
      (transaction d s ops).events = [Event.setLow]
      ∧ (transaction d s ops).events.countP Event.isSetHigh = 0) := by
  constructor
  · intro h
    refine ⟨(runOps d (postLow d s) ops).events
        ++ [Event.flush], ?_, ?_⟩
    · rw [transaction_low_ok_events d s ops h]
      simp
    · intro ev hev
      rcases List.mem_append.mp hev with hev | hev
      · exact runOps_events_no_pin d ops _ ev hev
      · simp only [List.mem_singleton] at hev
        subst hev
        exact ⟨rfl, rfl⟩
  · intro h
    rcases hx : (d.cs.set_low s.pinSt).2 with _ | e
    · exact absurd hx h
    · rw [transaction_low_fail d s ops e hx]
      exact ⟨rfl, rfl⟩

/-- C1 counterexample: on a device whose set_low always fails, the
transaction returns a CS error, yet CS is never deasserted: the trace
holds no set_high call at all, refuting "deasserted (set_high) exactly
once" for every (also failing) transaction. -/
theorem transaction_cs_bracketing_cex :
    (transaction failLowDevice st0 ([] : List (Operation Nat))).res
        = Except.error (DeviceError.Cs ())
    ∧ (transaction failLowDevice st0 ([] : List (Operation Nat))).events.countP
        Event.isSetLow = 1
    ∧ ¬ ((transaction failLowDevice st0 ([] : List (Operation Nat))).events.countP
        Event.isSetHigh = 1) :=
  ⟨rfl, by decide, by decide⟩

/-- C1 witness: concrete instance of the bracketing theorem on an
all-succeeding device. -/
theorem transaction_cs_bracketing_witness :
    ∃ mid, (transaction okDevice st0 [Operation.Write [1]]).events
        = Event.setLow :: (mid ++ [Event.setHigh])
      ∧ ∀ ev ∈ mid, ev.isSetLow = false ∧ ev.isSetHigh = false :=
  (transaction_cs_bracketing okDevice st0 [Operation.Write [1]]).1 rfl

/-- C5: in every transaction trace, each invocation of the delay provider
is immediately preceded by a transport flush call. -/
theorem transaction_flush_before_delay (d : Device σ π δ BusE CsE Word)
    (s : TState σ π δ) (ops : List (Operation Word)) :
    flushBeforeDelays (transaction d s ops).events = true := by
  rcases hl : (d.cs.set_low s.pinSt).2 with _ | e
  · rw [transaction_low_ok_events d s ops hl]
    unfold flushBeforeDelays
    simp only [List.cons_append, fbdAux]
    exact fbdAux_runOps d ops _ [Event.flush, Event.setHigh] false rfl
  · rw [transaction_low_fail d s ops e hl]
    rfl

/-- C6: if asserting CS (set_low) fails, `transaction` returns that error
wrapped as the `Cs` variant immediately, and no operation is executed:
the only call issued is the failing set_low itself. -/
theorem transaction_cs_assert_fail (d : Device σ π δ BusE CsE Word) (s : TState σ π δ)
    (ops : List (Operation Word)) (e : CsE) (h : (d.cs.set_low s.pinSt).2 = some e) :
    (transaction d s ops).res = Except.error (DeviceError.Cs e)
    ∧ (transaction d s ops).events = [Event.setLow] := by
  rw [transaction_low_fail d s ops e h]
  exact ⟨rfl, rfl⟩

/-- C6 witness: concrete instance on a device whose set_low fails. -/
theorem transaction_cs_assert_fail_witness :
    (transaction failLowDevice st0 ([Operation.Read [0]] : List (Operation Nat))).res
        = Except.error (DeviceError.Cs ())
    ∧ (transaction failLowDevice st0 ([Operation.Read [0]] : List (Operation Nat))).events
        = [Event.setLow] :=
  transaction_cs_assert_fail failLowDevice st0 [Operation.Read [0]] () rfl

/-- C9: if set_low fails, the transaction issues no transport call of any
kind (not even a flush), no set_high, and no delay before returning. -/
theorem transaction_cs_assert_fail_frame (d : Device σ π δ BusE CsE Word)
    (s : TState σ π δ) (ops : List (Operation Word)) (e : CsE)
    (h : (d.cs.set_low s.pinSt).2 = some e) :
    (transaction d s ops).events.countP Event.isTransport = 0
    ∧ (transaction d s ops).events.countP Event.isSetHigh = 0
    ∧ (transaction d s ops).events.countP Event.isDelay = 0 := by
  rw [transaction_low_fail d s ops e h]
  exact ⟨rfl, rfl, rfl⟩

/-- C9 witness: concrete instance on a device whose set_low fails. -/
theorem transaction_cs_assert_fail_frame_witness :
    (transaction failLowDevice st0 ([Operation.DelayUs 7] : List (Operation Nat))).events.countP
        Event.isTransport = 0
    ∧ (transaction failLowDevice st0 ([Operation.DelayUs 7] : List (Operation Nat))).events.countP
        Event.isSetHigh = 0
    ∧ (transaction failLowDevice st0 ([Operation.DelayUs 7] : List (Operation Nat))).events.countP
        Event.isDelay = 0 :=
  transaction_cs_assert_fail_frame failLowDevice st0 [Operation.DelayUs 7] () rfl

/-- C2: once CS is asserted, the transport calls issued by the
operation phase follow the operation list in caller order: if every
operation succeeds, the phase trace is exactly the concatenation of each
operation's matching primitive call; if some operation fails, the list
splits as `pre ++ fop :: post` where every operation of `pre` ran in
order, `fop` is the first failing operation (its error is the phase
result), and nothing of `post` ran. -/
theorem transaction_order (d : Device σ π δ BusE CsE Word) (s : TState σ π δ)
    (ops : List (Operation Word)) (h : (d.cs.set_low s.pinSt).2 = none) :
    ((runOps d (postLow d s) ops).res = none →
      (transaction d s ops).events
        = Event.setLow :: (opsEvents ops ++ [Event.flush, Event.setHigh]))
    ∧ (∀ e : BusE, (runOps d (postLow d s) ops).res = some e →
      ∃ pre fop post, ops = pre ++ fop :: post
        ∧ (runOps d (postLow d s) pre).res = none
        ∧ (transaction d s ops).events
            = Event.setLow :: ((opsEvents pre ++ failEvents fop)
                ++ [Event.flush, Event.setHigh])
        ∧ (runOp d (runOps d (postLow d s) pre).st fop).res = some e) := by
  constructor
  · intro hr
    rw [transaction_low_ok_events d s ops h, runOps_events_res_none d ops _ hr]
    simp
  · intro e hr
    rcases runOps_events_res_some d ops (postLow d s) e hr with
      ⟨pre, fop, post, h1, h2, h3, h4⟩
    refine ⟨pre, fop, post, h1, h2, ?_, h4⟩
    rw [transaction_low_ok_events d s ops h, h3]
    simp

/-- C2 witness: concrete instance, all-succeeding device. -/
theorem transaction_order_witness :
    (transaction okDevice st0 [Operation.Write [1, 2], Operation.Read [0]]).events
      = Event.setLow :: (opsEvents [Operation.Write [1, 2], Operation.Read [0]]
          ++ [Event.flush, Event.setHigh]) :=
  (transaction_order okDevice st0 [Operation.Write [1, 2], Operation.Read [0]] rfl).1 rfl

/-- C3: once CS is asserted, the reported result follows the priority
operation error (as `Spi`), then final-flush error (as `Spi`), then
set_high error (as `Cs`), else success — in particular an operation
error wins even if flush and set_high also fail. -/
theorem transaction_error_priority (d : Device σ π δ BusE CsE Word) (s : TState σ π δ)
    (ops : List (Operation Word)) (h : (d.cs.set_low s.pinSt).2 = none) :
    (∀ e : BusE, (runOps d (postLow d s) ops).res = some e →
        (transaction d s ops).res = Except.error (DeviceError.Spi e))
    ∧ ((runOps d (postLow d s) ops).res = none →
        ∀ e : BusE, (d.bus.flush (runOps d (postLow d s) ops).st.busSt).2 = some e →
        (transaction d s ops).res = Except.error (DeviceError.Spi e))
    ∧ ((runOps d (postLow d s) ops).res = none →
        (d.bus.flush (runOps d (postLow d s) ops).st.busSt).2 = none →
        ∀ e : CsE, (d.cs.set_high (runOps d (postLow d s) ops).st.pinSt).2 = some e →
        (transaction d s ops).res = Except.error (DeviceError.Cs e))
    ∧ ((runOps d (postLow d s) ops).res = none →
        (d.bus.flush (runOps d (postLow d s) ops).st.busSt).2 = none →
        (d.cs.set_high (runOps d (postLow d s) ops).st.pinSt).2 = none →
        (transaction d s ops).res = Except.ok ()) := by
  refine ⟨?_, ?_, ?_, ?_⟩
  · intro e hr
    rw [transaction_low_ok_res d s ops h, hr]
  · intro hr e hf
    rw [transaction_low_ok_res d s ops h, hr, hf]
  · intro hr hf e hh
    rw [transaction_low_ok_res d s ops h, hr, hf, hh]
  · intro hr hf hh
    rw [transaction_low_ok_res d s ops h, hr, hf, hh]

/-- C3 witness: concrete instance, all-succeeding device, empty list. -/
theorem transaction_error_priority_witness :
    (transaction okDevice st0 ([] : List (Operation Nat))).res = Except.ok () :=
  (transaction_error_priority okDevice st0 [] rfl).2.2.2 rfl rfl rfl

/-- C4: once CS is asserted, whatever the outcome of the operation phase,
the transaction always issues the final flush and then set_high as its
last two calls, and the final transport and pin states are those
produced by that flush and that set_high. -/
theorem transaction_cleanup (d : Device σ π δ BusE CsE Word) (s : TState σ π δ)
    (ops : List (Operation Word)) (h : (d.cs.set_low s.pinSt).2 = none) :
    (transaction d s ops).events
      = (Event.setLow :: (runOps d (postLow d s) ops).events)
          ++ [Event.flush, Event.setHigh]
    ∧ (transaction d s ops).st.busSt
        = (d.bus.flush (runOps d (postLow d s) ops).st.busSt).1
    ∧ (transaction d s ops).st.pinSt
        = (d.cs.set_high (runOps d (postLow d s) ops).st.pinSt).1 := by
  refine ⟨?_, ?_, ?_⟩
  · rw [transaction_low_ok_events d s ops h]
  · rw [transaction_low_ok_st d s ops h]
  · rw [transaction_low_ok_st d s ops h]

/-- C4 witness: concrete instance on a device whose write fails — the
cleanup flush and set_high are still issued. -/
theorem transaction_cleanup_witness :
    (transaction writeFailDevice st0 ([Operation.Write [3]] : List (Operation Nat))).events
      = (Event.setLow :: (runOps writeFailDevice (postLow writeFailDevice st0)
          [Operation.Write [3]]).events) ++ [Event.flush, Event.setHigh] :=
  (transaction_cleanup writeFailDevice st0 [Operation.Write [3]] rfl).1

/-- C7: a transaction over the empty operation list still asserts then
deasserts CS, issues no transport data call (only the final flush), and
succeeds when set_low, the final flush and set_high all succeed. -/
theorem transaction_empty (d : Device σ π δ BusE CsE Word) (s : TState σ π δ)
    (h1 : (d.cs.set_low s.pinSt).2 = none)
    (h2 : (d.bus.flush s.busSt).2 = none)
    (h3 : (d.cs.set_high (d.cs.set_low s.pinSt).1).2 = none) :
    (transaction d s []).res = Except.ok ()
    ∧ (transaction d s []).events = [Event.setLow, Event.flush, Event.setHigh] := by
  constructor
  · rw [transaction_low_ok_res d s [] h1]
    simp [runOps, postLow, h2, h3]
  · rw [transaction_low_ok_events d s [] h1]
    simp [runOps]

/-- C7 witness: concrete instance, all-succeeding device. -/
theorem transaction_empty_witness :
    (transaction okDevice st0 []).res = Except.ok ()
    ∧ (transaction okDevice st0 []).events
        = [Event.setLow, Event.flush, Event.setHigh] :=
  transaction_empty okDevice st0 rfl rfl rfl

/-- C8: the Operation type executed by a transaction is closed: every
value is exactly one of the five variants Read, Write, Transfer,
TransferInPlace and DelayUs (a delay given in microseconds); a
transaction is a list of precisely these values. -/
theorem Operation_closed (op : Operation Word) :
    (∃ buf, op = Operation.Read buf)
    ∨ (∃ buf, op = Operation.Write buf)
    ∨ (∃ rbuf wbuf, op = Operation.Transfer rbuf wbuf)
    ∨ (∃ buf, op = Operation.TransferInPlace buf)
    ∨ (∃ us, op = Operation.DelayUs us) := by
  cases op with
  | Read buf => exact Or.inl ⟨buf, rfl⟩
  | Write buf => exact Or.inr (Or.inl ⟨buf, rfl⟩)
  | Transfer rbuf wbuf => exact Or.inr (Or.inr (Or.inl ⟨rbuf, wbuf, rfl⟩))
  | TransferInPlace buf => exact Or.inr (Or.inr (Or.inr (Or.inl ⟨buf, rfl⟩)))
  | DelayUs us => exact Or.inr (Or.inr (Or.inr (Or.inr ⟨us, rfl⟩)))

/-- C10: if the flush issued at a DelayUs operation fails (after a
successfully executed prefix), the delay provider is not invoked for
that operation, no later operation runs, and the transaction reports
the flush error wrapped as the `Spi` variant. -/
theorem transaction_delay_flush_fail (d : Device σ π δ BusE CsE Word)
    (s : TState σ π δ) (pre post : List (Operation Word)) (us : Nat) (e : BusE)
    (h : (d.cs.set_low s.pinSt).2 = none)
    (hpre : (runOps d (postLow d s) pre).res = none)
    (hf : (d.bus.flush (runOps d (postLow d s) pre).st.busSt).2 = some e) :
    (transaction d s (pre ++ Operation.DelayUs us :: post)).res
        = Except.error (DeviceError.Spi e)
    ∧ (transaction d s (pre ++ Operation.DelayUs us :: post)).events
        = Event.setLow :: (((runOps d (postLow d s) pre).events ++ [Event.flush])
            ++ [Event.flush, Event.setHigh])
    ∧ (transaction d s (pre ++ Operation.DelayUs us :: post)).st.delaySt
        = (runOps d (postLow d s) pre).st.delaySt := by
  have hopE : (runOps d (runOps d (postLow d s) pre).st
      (Operation.DelayUs us :: post)).events = [Event.flush] := by
    simp [runOps, runOp, hf]
  have hopR : (runOps d (runOps d (postLow d s) pre).st
      (Operation.DelayUs us :: post)).res = some e := by
    simp [runOps, runOp, hf]
  have hopS : (runOps d (runOps d (postLow d s) pre).st
      (Operation.DelayUs us :: post)).st.delaySt
      = (runOps d (postLow d s) pre).st.delaySt := by
    simp [runOps, runOp, hf]
  rcases runOps_append d pre (Operation.DelayUs us :: post) (postLow d s) hpre with
    ⟨hst, hev, hres⟩
  refine ⟨?_, ?_, ?_⟩
  · rw [transaction_low_ok_res d s _ h, hres, hopR]
  · rw [transaction_low_ok_events d s _ h, hev, hopE]
    simp
  · rw [transaction_low_ok_st d s _ h]
    show (runOps d (postLow d s) (pre ++ Operation.DelayUs us :: post)).st.delaySt = _
    rw [hst, hopS]

/-- C10 witness: concrete instance on a device whose flush fails. -/
theorem transaction_delay_flush_fail_witness :
    (transaction flushFailDevice st0
        (([] : List (Operation Nat)) ++ Operation.DelayUs 5 :: [])).res
      = Except.error (DeviceError.Spi ()) :=
  (transaction_delay_flush_fail flushFailDevice st0 [] [] 5 () rfl rfl rfl).1

end Claims
